import Mathlib

/-!
Shallow embedding of the numerical core of the curvesim repository:
the stableswap `Pool` (src/curvesim/pool/stableswap/pool.py) and the
volume-limited arbitrage driver
(src/curvesim/pipelines/vol_limited_arb/trader.py).

Python integers are modelled as `ℤ`; Python `//` (floor division) is
`Int.fdiv` (checked by `pyDiv` where the divisor is a variable, so that a
Python `ZeroDivisionError` is represented explicitly).  The unbounded
`while` loops of the Newton solvers are modelled with an explicit fuel
parameter; running out of fuel is the distinguished outcome `PyErr.fuelOut`
("the loop is still running after that many iterations").
-/

set_option maxRecDepth 40000

namespace Curvesim

/-- Runtime outcomes of the embedded Python code.  `indexError`,
`assertError` and `zeroDiv` model the Python exceptions of the same
meaning; `fuelOut` means an (unbounded) loop was still running when the
fuel of the embedding ran out; `invalidInputs` models the
`curvesim.exceptions.CurvesimValueError`-style input validation error that
the specification's error model mentions (no code path in the given
sources produces it, which is itself the subject of one of the claims). -/
inductive PyErr where
  | indexError
  | assertError
  | zeroDiv
  | invalidInputs
  | fuelOut
deriving DecidableEq, Repr

/-- Python list read `xs[k]` for a non-negative index: `IndexError` when
out of range. -/
def pyIndex (xs : List ℤ) (k : ℕ) : Except PyErr ℤ :=
  match xs.get? k with
  | some v => Except.ok v
  | none => Except.error PyErr.indexError

/-- Python list write `xs[k] = v` for a non-negative index. -/
def pySet (xs : List ℤ) (k : ℕ) (v : ℤ) : Except PyErr (List ℤ) :=
  if k < xs.length then Except.ok (xs.set k v) else Except.error PyErr.indexError

/-- Python in-place update `xs[k] += v`. -/
def pyListAdd (xs : List ℤ) (k : ℕ) (v : ℤ) : Except PyErr (List ℤ) := do
  let old ← pyIndex xs k
  pySet xs k (old + v)

/-- Python floor division `a // b` with an explicit `ZeroDivisionError`. -/
def pyDiv (a b : ℤ) : Except PyErr ℤ :=
  if b = 0 then Except.error PyErr.zeroDiv else Except.ok (a.fdiv b)

/-- Python `int()` truncation (toward zero) of a rational. -/
def pyInt (q : ℚ) : ℤ :=
  q.num.tdiv (q.den : ℤ)

/-- The fixed-point scale `10**18` used throughout the pool code. -/
def TEN18 : ℤ := 10 ^ 18

/-- The Newton loop of `Pool.get_D` (pool.py lines 112-127).  State:
current iterate `D` and previous iterate `Dprev` (initially `0`); the
loop body first computes `D_P = D * prod (D / (n * x))` by a fold over
`xp`, then the next iterate.  One unit of fuel is one execution of the
loop body. -/
def getDLoop (xp : List ℤ) (n : ℕ) (Ann S : ℤ) : ℕ → ℤ → ℤ → Except PyErr ℤ
  | 0, D, Dprev =>
    if |D - Dprev| ≤ 1 then Except.ok D else Except.error PyErr.fuelOut
  | fuel + 1, D, Dprev =>
    if |D - Dprev| ≤ 1 then Except.ok D
    else do
      let DP ← xp.foldlM (fun acc x => pyDiv (acc * D) ((n : ℤ) * x)) D
      let Dnext ← pyDiv ((Ann * S + DP * (n : ℤ)) * D)
        ((Ann - 1) * D + ((n : ℤ) + 1) * DP)
      getDLoop xp n Ann S fuel Dnext D

/-- `Pool.get_D(xp, A)` (pool.py lines 94-127): `S = sum(xp)`,
`Ann = A * n`, initial iterate `D = S`, then the Newton loop until
`|D - Dprev| <= 1`. -/
def get_D (xp : List ℤ) (A : ℤ) (n : ℕ) (fuel : ℕ) : Except PyErr ℤ :=
  getDLoop xp n (A * (n : ℤ)) xp.sum fuel xp.sum 0

/-- The Python list comprehension `[xs[k] for k in range(n) if k != j]`
(pool.py lines 163 and 186): the element at each index `k ≠ j` below `n`
is read (raising `IndexError` when `n` exceeds the list length). -/
def dropCoin (xs : List ℤ) (n : ℕ) (j : ℕ) : Except PyErr (List ℤ) :=
  (List.range n).foldlM
    (fun acc k => if k = j then pure acc else do pure (acc ++ [← pyIndex xs k]))
    []

/-- The Newton loop of `Pool.get_y` (pool.py lines 170-175): iterate
`y = (y**2 + c) // (2*y + b)` from `y = D`, `y_prev = 0`, until
`|y - y_prev| <= 1`. -/
def getYLoop (c b : ℤ) : ℕ → ℤ → ℤ → Except PyErr ℤ
  | 0, y, yprev =>
    if |y - yprev| ≤ 1 then Except.ok y else Except.error PyErr.fuelOut
  | fuel + 1, y, yprev =>
    if |y - yprev| ≤ 1 then Except.ok y
    else do
      let ynext ← pyDiv (y ^ 2 + c) (2 * y + b)
      getYLoop c b fuel ynext y

/-- The Newton loop of `Pool.get_y_D` (pool.py lines 194-198): iterate
`y = (y**2 + c) // (2*y + b - D)` from `y = D`, `y_prev = 0`, until
`|y - y_prev| <= 1`.  Note the extra `- D` in the denominator, absent
from the `get_y` loop (where it is folded into `b` instead). -/
def getYDLoop (c b D : ℤ) : ℕ → ℤ → ℤ → Except PyErr ℤ
  | 0, y, yprev =>
    if |y - yprev| ≤ 1 then Except.ok y else Except.error PyErr.fuelOut
  | fuel + 1, y, yprev =>
    if |y - yprev| ≤ 1 then Except.ok y
    else do
      let ynext ← pyDiv (y ^ 2 + c) (2 * y + b - D)
      getYDLoop c b D fuel ynext y

/-- `Pool.get_y(i, j, x, xp)` (pool.py lines 137-176), with the pool
fields `self.A` and `self.n` passed explicitly.  `D` is recomputed from
the given `xp` (via `self.D(xx)` before `xx` is mutated), then
`xx[i] = x`, index `j` is dropped, `c` and `b` are accumulated and the
Newton loop is run. -/
def get_y (A : ℤ) (n : ℕ) (i j : ℕ) (x : ℤ) (xp : List ℤ) (fuel : ℕ) :
    Except PyErr ℤ := do
  let D ← get_D xp A n fuel
  let xx ← pySet xp i x
  let xx ← dropCoin xx n j
  let Ann := A * (n : ℤ)
  let c ← xx.foldlM (fun c y => pyDiv (c * D) (y * (n : ℤ))) D
  let c ← pyDiv (c * D) ((n : ℤ) * Ann)
  let dAnn ← pyDiv D Ann
  let b := xx.sum + dAnn - D
  getYLoop c b fuel D 0

/-- `Pool.get_y_D(A, i, xp, D)` (pool.py lines 178-200), with the pool
field `self.n` passed explicitly: index `i` is dropped from `xp`,
`S = sum(xx)`, `c` and `b = S + D // Ann` are accumulated and the Newton
loop with denominator `2*y + b - D` is run. -/
def get_y_D (A : ℤ) (n : ℕ) (i : ℕ) (xp : List ℤ) (D : ℤ) (fuel : ℕ) :
    Except PyErr ℤ := do
  let xx ← dropCoin xp n i
  let S := xx.sum
  let Ann := A * (n : ℤ)
  let c ← xx.foldlM (fun c y => pyDiv (c * D) (y * (n : ℤ))) D
  let c ← pyDiv (c * D) ((n : ℤ) * Ann)
  let dAnn ← pyDiv D Ann
  let b := S + dAnn
  getYDLoop c b D fuel D 0

/-- Modelled from the spec (claim C5 and spec section 4.2): a variant of
`get_y_D` whose Newton iteration uses the denominator
`2*y + S + D // Ann` with no `- D` term, exactly as the specification
describes it.  This definition follows the specification's words, not the
source, and exists only to be compared against `get_y_D`. -/
def get_y_D_specVariant (A : ℤ) (n : ℕ) (i : ℕ) (xp : List ℤ) (D : ℤ)
    (fuel : ℕ) : Except PyErr ℤ := do
  let xx ← dropCoin xp n i
  let S := xx.sum
  let Ann := A * (n : ℤ)
  let c ← xx.foldlM (fun c y => pyDiv (c * D) (y * (n : ℤ))) D
  let c ← pyDiv (c * D) ((n : ℤ) * Ann)
  let dAnn ← pyDiv D Ann
  let b := S + dAnn
  getYLoop c b fuel D 0

/-- The stableswap `Pool` state (pool.py lines 14-65): the fields set by
`__init__`.  `r` and `n_total` are omitted (never used by the modelled
operations; `n_total` always equals `n`). -/
structure Pool where
  A : ℤ
  n : ℕ
  fee : ℤ
  p : List ℤ
  x : List ℤ
  tokens : ℤ
  fee_mul : Option ℤ
  admin_fee : ℤ
  admin_balances : List ℤ
deriving DecidableEq, Repr

/-- `Pool._xp` (pool.py lines 82-83): `[x * p // 10**18 for x, p in
zip(self.x, self.p)]`. -/
def Pool.xp (pool : Pool) : List ℤ :=
  List.zipWith (fun x p => (x * p).fdiv TEN18) pool.x pool.p

/-- `Pool.dynamic_fee(xpi, xpj)` (pool.py lines 346-351). -/
def dynamic_fee (fee_mul fee xpi xpj : ℤ) : Except PyErr ℤ := do
  let xps2 := (xpi + xpj) * (xpi + xpj)
  let t ← pyDiv ((fee_mul - 10 ^ 10) * 4 * xpi * xpj) xps2
  pyDiv (fee_mul * fee) (t + 10 ^ 10)

/-- The fee computation of `Pool.exchange` (pool.py lines 235-238):
flat fee `dy * fee // 10**10` when `fee_mul` is absent, otherwise the
dynamic fee evaluated at the mid balances. -/
def exchangeFee (pool : Pool) (dy xpi x xpj y : ℤ) : Except PyErr ℤ :=
  match pool.fee_mul with
  | none => pure ((dy * pool.fee).fdiv (10 ^ 10))
  | some fm => do
      let df ← dynamic_fee fm pool.fee ((xpi + x).fdiv 2) ((xpj + y).fdiv 2)
      pure ((dy * df).fdiv (10 ^ 10))

/-- `Pool.exchange(i, j, dx)` (pool.py lines 202-252).  Returns the pair
`(dy, fee)` returned by the method together with the updated pool.  The
`assert dy >= 0` of line 247 is `assertError`; it fires before any
balance is mutated.  No input validation is performed by the source: bad
indices surface as `IndexError` from the list reads, in the order the
source performs them. -/
def exchange (pool : Pool) (i j : ℕ) (dx : ℤ) (fuel : ℕ) :
    Except PyErr (ℤ × ℤ × Pool) := do
  let xp := pool.xp
  let xpi ← pyIndex xp i
  let pi ← pyIndex pool.p i
  let x := xpi + (dx * pi).fdiv TEN18
  let y ← get_y pool.A pool.n i j x xp fuel
  let xpj ← pyIndex xp j
  let dy := xpj - y - 1
  let fee ← exchangeFee pool dy xpi x xpj y
  let admin_fee := (fee * pool.admin_fee).fdiv (10 ^ 10)
  let rate ← pyIndex pool.p j
  let dy ← pyDiv ((dy - fee) * TEN18) rate
  let fee ← pyDiv (fee * TEN18) rate
  let admin_fee ← pyDiv (admin_fee * TEN18) rate
  if dy < 0 then Except.error PyErr.assertError
  else do
    let x1 ← pyListAdd pool.x i dx
    let x2 ← pyListAdd x1 j (-(dy + admin_fee))
    let ab ← pyListAdd pool.admin_balances j admin_fee
    Except.ok (dy, fee, { pool with x := x2, admin_balances := ab })

/-- The fee-reduction loop of `calc_withdraw_one_coin` (pool.py lines
265-274): `_fee = fee * n // (4 * (n - 1))`, then for each `j` the
expected movement `dx_expected` is computed (reading the evolving list at
index `j`, which previous iterations have not touched) and
`xp_reduced[j] -= _fee * dx_expected // 10**10`.  Because of the Python
aliasing `xp_reduced = xp` (line 263) there is only one list: this
function returns the list both names refer to after the loop. -/
def reduceXp (pool : Pool) (xpIn : List ℤ) (D0 D1 new_y : ℤ) (i : ℕ) :
    Except PyErr (List ℤ) := do
  let n := pool.n
  let fee1 ← pyDiv (pool.fee * (n : ℤ)) (4 * ((n : ℤ) - 1))
  (List.range n).foldlM
    (fun xs j => do
      let xj ← pyIndex xs j
      let dx_expected ←
        if j = i then do
          let t ← pyDiv (xj * D1) D0
          pure (t - new_y)
        else do
          let t ← pyDiv (xj * D1) D0
          pure (xj - t)
      pyListAdd xs j (-((fee1 * dx_expected).fdiv (10 ^ 10))))
    xpIn

/-- The guard `if self.fee and use_fee:` around the fee-reduction loop
(pool.py line 264): the reduced list when the guard holds, the unreduced
`xp` otherwise. -/
def reducedOrSame (pool : Pool) (xp : List ℤ) (D0 D1 new_y : ℤ) (i : ℕ)
    (use_fee : Bool) : Except PyErr (List ℤ) :=
  if pool.fee ≠ 0 ∧ use_fee then reduceXp pool xp D0 D1 new_y i
  else pure xp

/-- `Pool.calc_withdraw_one_coin(token_amount, i, use_fee)` (pool.py
lines 254-282).  The Python method returns `(dy, dy_fee)` when `use_fee`
and bare `dy` otherwise; here the second component is `none` in the
latter case.  The local name `xp_reduced` is an alias of the list `xp`
(line 263, `xp_reduced = xp` copies the reference, not the list), so the
final `dy` on line 276 reads the fee-reduced value of coordinate `i`. -/
def calc_withdraw_one_coin (pool : Pool) (token_amount : ℤ) (i : ℕ)
    (use_fee : Bool) (fuel : ℕ) : Except PyErr (ℤ × Option ℤ) := do
  let A := pool.A
  let xp := pool.xp
  let D0 ← get_D xp A pool.n fuel
  let t ← pyDiv (token_amount * D0) pool.tokens
  let D1 := D0 - t
  let new_y ← get_y_D A pool.n i xp D1 fuel
  let xpi ← pyIndex xp i
  let pi ← pyIndex pool.p i
  let dy_before_fee ← pyDiv ((xpi - new_y) * TEN18) pi
  let xp_reduced ← reducedOrSame pool xp D0 D1 new_y i use_fee
  let yred ← get_y_D A pool.n i xp_reduced D1 fuel
  let xpredi ← pyIndex xp_reduced i
  let dy ← pyDiv ((xpredi - yred - 1) * TEN18) pi
  if use_fee then Except.ok (dy, some (dy_before_fee - dy))
  else Except.ok (dy, none)

/-- Modelled from the spec (claim C4 and spec section 4.3): the value
`(xp[i] - get_y_D(A, i, xp_reduced, D1) - 1) * 10**18 // p[i]` in which
the minuend `xp[i]` is the ORIGINAL rate-normalized balance of coin `i`
(not reduced by the fee shrink), as the claim reads the formula.  This
definition follows the claim's words and exists only to be compared with
`calc_withdraw_one_coin`. -/
def withdraw_dy_specVariant (pool : Pool) (token_amount : ℤ) (i : ℕ)
    (fuel : ℕ) : Except PyErr ℤ := do
  let A := pool.A
  let xp := pool.xp
  let D0 ← get_D xp A pool.n fuel
  let t ← pyDiv (token_amount * D0) pool.tokens
  let D1 := D0 - t
  let new_y ← get_y_D A pool.n i xp D1 fuel
  let xpi ← pyIndex xp i
  let pi ← pyIndex pool.p i
  let xp_reduced ←
    if pool.fee ≠ 0 then reduceXp pool xp D0 D1 new_y i
    else pure xp
  let yred ← get_y_D A pool.n i xp_reduced D1 fuel
  pyDiv ((xpi - yred - 1) * TEN18) pi

/-- `Pool.get_D_mem(balances, A)` (pool.py lines 129-135). -/
def get_D_mem (pool : Pool) (balances : List ℤ) (A : ℤ) (fuel : ℕ) :
    Except PyErr ℤ :=
  get_D (List.zipWith (fun x p => (x * p).fdiv TEN18) balances pool.p) A
    pool.n fuel

/-- `Pool.calc_token_amount(amounts, use_fee)` (pool.py lines 307-341).
The Python method returns `(mint_amount, fees)` when `use_fee` and bare
`mint_amount` otherwise; here the fee list is `none` in the latter case.
`new_balances = self.x[:]` and `mint_balances = new_balances[:]` are
copies; `self.x` is never written.  The final division is by `D0`, which
is a Python `ZeroDivisionError` when the pool balances are all zero. -/
def calc_token_amount (pool : Pool) (amounts : List ℤ) (use_fee : Bool)
    (fuel : ℕ) : Except PyErr (ℤ × Option (List ℤ)) := do
  let A := pool.A
  let old_balances := pool.x
  let D0 ← get_D_mem pool old_balances A fuel
  let new_balances ← (List.range pool.n).foldlM
    (fun xs k => do pyListAdd xs k (← pyIndex amounts k)) pool.x
  let D1 ← get_D_mem pool new_balances A fuel
  if use_fee then do
    let fee1 ← pyDiv (pool.fee * (pool.n : ℤ)) (4 * ((pool.n : ℤ) - 1))
    let fm ← (List.range pool.n).foldlM
      (fun (fm : List ℤ × List ℤ) k => do
        let oldk ← pyIndex old_balances k
        let ideal ← pyDiv (D1 * oldk) D0
        let newk ← pyIndex new_balances k
        let feek := (fee1 * |ideal - newk|).fdiv (10 ^ 10)
        let mb ← pyListAdd fm.2 k (-feek)
        pure (fm.1 ++ [feek], mb))
      ([], new_balances)
    let D2 ← get_D_mem pool fm.2 A fuel
    let diff ← pyDiv (pool.tokens * (D2 - D0)) D0
    Except.ok (diff, some fm.1)
  else do
    let D2 ← get_D_mem pool new_balances A fuel
    let diff ← pyDiv (pool.tokens * (D2 - D0)) D0
    Except.ok (diff, none)

/-- The `D` argument of the `Pool` constructor (pool.py lines 50-53):
either a virtual total balance (an int) or an explicit balance list. -/
inductive DArg where
  | int (D : ℤ)
  | balances (xs : List ℤ)
deriving DecidableEq, Repr

/-- The initial balance computation of `Pool.__init__` (pool.py lines
50-53): the list itself when `D` is a list, otherwise
`[D // n * 10**18 // _p for _p in p]`. -/
def initialBalances (D : DArg) (n : ℕ) (p : List ℤ) : Except PyErr (List ℤ) :=
  match D with
  | DArg.balances xs => pure xs
  | DArg.int d => do
      let dn ← pyDiv d (n : ℤ)
      p.mapM (fun q => pyDiv (dn * TEN18) q)

/-- The LP-token initialization `self.tokens = tokens or self.D()`
(pool.py line 60): `D()` is evaluated exactly when `tokens` is falsy,
that is `None` or `0`. -/
def initialTokens (tokens? : Option ℤ) (xp : List ℤ) (A : ℤ) (n fuel : ℕ) :
    Except PyErr ℤ :=
  match tokens? with
  | some t => if t = 0 then get_D xp A n fuel else pure t
  | none => get_D xp A n fuel

/-- `Pool.__init__` (pool.py lines 14-65).  `p? = none` models omitting
`p` (Python default `None`); `p or [10**18] * n` makes both `None` and
the empty list fall back to the default.  `tokens? = none` models
omitting `tokens`; `self.tokens = tokens or self.D()` evaluates `D()`
exactly when `tokens` is falsy (`None` or `0`). -/
def Pool.make (A : ℤ) (D : DArg) (n : ℕ) (p? : Option (List ℤ))
    (tokens? : Option ℤ) (fee : ℤ) (fee_mul : Option ℤ) (admin_fee : ℤ)
    (fuel : ℕ) : Except PyErr Pool := do
  let p := match p? with
    | some q => if q = [] then List.replicate n TEN18 else q
    | none => List.replicate n TEN18
  let x ← initialBalances D n p
  let toks ← initialTokens tokens?
    (List.zipWith (fun a b => (a * b).fdiv TEN18) x p) A n fuel
  Except.ok (Pool.mk A n fee p x toks fee_mul admin_fee (List.replicate n 0))

/-- A seed trade after the volume-limiting step of
`multipair_optimal_arbitrage` (trader.py lines 78-84): the 5-tuple
`(size, pair, price_target, lo, hi)`. -/
structure ArbTrade where
  size : ℤ
  pair : ℕ × ℕ
  target : ℚ
  lo : ℤ
  hi : ℤ
deriving DecidableEq, Repr

/-- Trader.py lines 78-84: for each seed trade and volume limit,
`limit = int(limit * 10**18)`, clamp `size` to `min(size, limit)` and
record the box `[0, limit + 1]`. -/
def limitTrades (init_trades : List (ℤ × (ℕ × ℕ) × ℚ)) (limits : List ℚ) :
    List ArbTrade :=
  (init_trades.zip limits).map (fun tl =>
    let lim := pyInt (tl.2 * 10 ^ 18)
    ArbTrade.mk (min tl.1.1 lim) tl.1.2.1 tl.1.2.2 0 (lim + 1))

/-- Trader.py line 87: `sorted(limited_init_trades, reverse=True,
key=lambda t: t[0])` — a stable sort, descending by clamped size.
Python's stable descending sort is modelled by the (stable) insertion
sort with the relation `b.size ≤ a.size`: it produces the same list. -/
def sortTrades (ts : List ArbTrade) : List ArbTrade :=
  List.insertionSort (fun a b => b.size ≤ a.size) ts

/-- One step of the trade-formatting loop (trader.py lines 127-135):
the entry is skipped when its `dx` slot is NaN (modelled by `none`);
otherwise `dx = int(dx)` and the trade `(pair[0], pair[1], dx)` is
emitted iff `dx > 0`. -/
def formatStep (t : Option ℚ × (ℕ × ℕ)) : Option (ℕ × ℕ × ℤ) :=
  match t.1 with
  | none => none
  | some q =>
    let dx := pyInt q
    if 0 < dx then some (t.2.1, t.2.2, dx) else none

/-- The emitted trade list (trader.py lines 124-135), one `formatStep`
per solver output slot. -/
def formatTrades (coins : List (ℕ × ℕ)) (dxs : List (Option ℚ)) :
    List (ℕ × ℕ × ℤ) :=
  (dxs.zip coins).filterMap formatStep

/-- One step of the trade loop inside `post_trade_price_error_multi`
(trader.py lines 92-101): for the entry `(pair, dx-slot)`, NaN (`none`)
counts as `dx = 0`, otherwise `dx = int(dxs[k])`; the trade executes on
the snapshot state only when `dx > 0`. -/
def applyTradeStep {P : Type} (trade : P → ℕ → ℕ → ℤ → P) (st : P)
    (t : (ℕ × ℕ) × Option ℚ) : P :=
  let dx := match t.2 with
    | none => 0
    | some q => pyInt q
  if 0 < dx then trade st t.1.1 t.1.2 dx else st

/-- `post_trade_price_error_multi(dxs, price_targets, coins)` (trader.py
lines 90-109), over an abstract simulation pool.  Modelled from the
spec: the `SimPool` interface (`pool.trade`, `pool.price`,
`pool.use_snapshot_context`) is not part of the given sources, so the
pool is any type `P` with a price function and a state-transforming
trade function; the snapshot context means the trades are applied to a
local copy of the state (the argument `pool` is left untouched), and the
residuals are read off that copy.  NaN entries of `dxs` are `none` and
trade size `0`; a trade executes only when `int(dxs[k]) > 0`. -/
def post_trade_price_error_multi {P : Type} (price : P → ℕ → ℕ → Bool → ℚ)
    (trade : P → ℕ → ℕ → ℤ → P) (pool : P) (dxs : List (Option ℚ))
    (price_targets : List ℚ) (coins : List (ℕ × ℕ)) : List ℚ :=
  let snapshot := (coins.zip dxs).foldl (applyTradeStep trade) pool
  (coins.zip price_targets).map
    (fun t => price snapshot t.1.1 t.1.2 true - t.2)

/-- The `except` branch of `multipair_optimal_arbitrage` (trader.py
lines 139-148): when `least_squares` raises, the function returns the
(still empty) `trades` list and the residuals evaluated at the all-zero
trade vector `[0] * len(sizes)`. -/
def multipair_failure_result {P : Type} (price : P → ℕ → ℕ → Bool → ℚ)
    (trade : P → ℕ → ℕ → ℤ → P) (pool : P) (sizes : List ℤ)
    (price_targets : List ℚ) (coins : List (ℕ × ℕ)) :
    List (ℕ × ℕ × ℤ) × List ℚ :=
  ([],
    post_trade_price_error_multi price trade pool
      (List.replicate sizes.length (some 0)) price_targets coins)

/-- The concrete pool of spec section 8 scenario 2:
`Pool(A=250, D=10**6 * 10**18, n=2)` with all defaults
(`fee = 4 * 10**6`, `admin_fee = 0`): balances `[5*10^23, 5*10^23]`,
LP supply `10^24`. -/
def testPool : Pool :=
  Pool.mk 250 2 (4 * 10 ^ 6) [TEN18, TEN18] [5 * 10 ^ 23, 5 * 10 ^ 23]
    (10 ^ 24) none 0 [0, 0]

/-! ### Helper lemmas -/

theorem okBind {α β : Type} (a : α) (f : α → Except PyErr β) :
    (Except.ok a >>= f) = f a :=
  rfl

theorem errBind {α β : Type} (e : PyErr) (f : α → Except PyErr β) :
    ((Except.error e : Except PyErr α) >>= f) = Except.error e :=
  rfl

theorem pureEq {α : Type} (a : α) : (pure a : Except PyErr α) = Except.ok a :=
  rfl

theorem bindOk {α β : Type} {e : Except PyErr α} {f : α → Except PyErr β}
    {b : β} (h : (e >>= f) = Except.ok b) :
    ∃ a, e = Except.ok a ∧ f a = Except.ok b := by
  cases e with
  | error err => exact Except.noConfusion h
  | ok a => exact ⟨a, rfl, h⟩

/-- A converged state returns immediately whatever the remaining fuel. -/
theorem getDLoop_converged (xp : List ℤ) (n : ℕ) (Ann S : ℤ) (f : ℕ)
    (D Dprev : ℤ) (hc : |D - Dprev| ≤ 1) :
    getDLoop xp n Ann S f D Dprev = Except.ok D := by
  cases f with
  | zero => rw [getDLoop, if_pos hc]
  | succ k => rw [getDLoop, if_pos hc]

/-- Once the `get_D` Newton loop has converged within some fuel budget,
any larger budget gives the same result: the fuel does not influence the
value, only whether the embedding has enough of it to finish. -/
theorem getDLoop_fuel_mono (xp : List ℤ) (n : ℕ) (Ann S : ℤ) :
    ∀ (f f' : ℕ) (D Dprev d : ℤ), f ≤ f' →
      getDLoop xp n Ann S f D Dprev = Except.ok d →
      getDLoop xp n Ann S f' D Dprev = Except.ok d := by
  intro f
  induction f with
  | zero =>
    intro f' D Dprev d _ h
    rw [getDLoop] at h
    by_cases hc : |D - Dprev| ≤ 1
    · rw [if_pos hc] at h
      rw [getDLoop_converged xp n Ann S f' D Dprev hc]
      exact h
    · rw [if_neg hc] at h
      exact Except.noConfusion h
  | succ f ih =>
    intro f' D Dprev d hle h
    rw [getDLoop] at h
    by_cases hc : |D - Dprev| ≤ 1
    · rw [if_pos hc] at h
      rw [getDLoop_converged xp n Ann S f' D Dprev hc]
      exact h
    · rw [if_neg hc] at h
      obtain ⟨f'', rfl⟩ : ∃ f'', f' = f'' + 1 := by
        cases f' with
        | zero => omega
        | succ k => exact ⟨k, rfl⟩
      obtain ⟨DP, hDP, h⟩ := bindOk h
      obtain ⟨Dnext, hdn, h⟩ := bindOk h
      rw [getDLoop, if_neg hc, hDP, okBind, hdn, okBind]
      exact ih f'' Dnext D d (by omega) h

theorem bind_ne_inv {α β : Type} {e : Except PyErr α} {f : α → Except PyErr β}
    (h1 : e ≠ Except.error PyErr.invalidInputs)
    (h2 : ∀ a, f a ≠ Except.error PyErr.invalidInputs) :
    (e >>= f) ≠ Except.error PyErr.invalidInputs := by
  cases e with
  | error err =>
    rw [errBind]
    intro hh
    injection hh with h'
    exact h1 (by rw [h'])
  | ok a => rw [okBind]; exact h2 a

theorem pyIndex_ne_inv (xs : List ℤ) (k : ℕ) :
    pyIndex xs k ≠ Except.error PyErr.invalidInputs := by
  unfold pyIndex
  cases xs.get? k <;> simp

theorem pySet_ne_inv (xs : List ℤ) (k : ℕ) (v : ℤ) :
    pySet xs k v ≠ Except.error PyErr.invalidInputs := by
  unfold pySet
  split <;> simp

theorem pyListAdd_ne_inv (xs : List ℤ) (k : ℕ) (v : ℤ) :
    pyListAdd xs k v ≠ Except.error PyErr.invalidInputs :=
  bind_ne_inv (pyIndex_ne_inv xs k) (fun old => pySet_ne_inv xs k (old + v))

theorem pyDiv_ne_inv (a b : ℤ) :
    pyDiv a b ≠ Except.error PyErr.invalidInputs := by
  unfold pyDiv
  split <;> simp

theorem foldlM_ne_inv {α β : Type} (f : β → α → Except PyErr β)
    (hf : ∀ b a, f b a ≠ Except.error PyErr.invalidInputs) :
    ∀ (l : List α) (b : β), l.foldlM f b ≠ Except.error PyErr.invalidInputs := by
  intro l
  induction l with
  | nil =>
    intro b hh
    exact Except.noConfusion hh
  | cons a l ih =>
    intro b
    rw [List.foldlM_cons]
    exact bind_ne_inv (hf b a) (fun b' => ih b')

theorem getDLoop_ne_inv (xp : List ℤ) (n : ℕ) (Ann S : ℤ) :
    ∀ (f : ℕ) (D Dprev : ℤ),
      getDLoop xp n Ann S f D Dprev ≠ Except.error PyErr.invalidInputs := by
  intro f
  induction f with
  | zero =>
    intro D Dprev
    rw [getDLoop]
    split <;> simp
  | succ f ih =>
    intro D Dprev
    rw [getDLoop]
    split
    · simp
    · exact bind_ne_inv
        (foldlM_ne_inv _ (fun acc x => pyDiv_ne_inv (acc * D) ((n : ℤ) * x)) xp D)
        (fun DP => bind_ne_inv (pyDiv_ne_inv _ _) (fun Dnext => ih Dnext D))

theorem get_D_ne_inv (xp : List ℤ) (A : ℤ) (n : ℕ) (fuel : ℕ) :
    get_D xp A n fuel ≠ Except.error PyErr.invalidInputs :=
  getDLoop_ne_inv xp n (A * (n : ℤ)) xp.sum fuel xp.sum 0

theorem dropCoin_ne_inv (xs : List ℤ) (n j : ℕ) :
    dropCoin xs n j ≠ Except.error PyErr.invalidInputs := by
  unfold dropCoin
  refine foldlM_ne_inv _ ?_ _ _
  intro acc k
  by_cases hk : k = j
  · rw [if_pos hk]
    intro hh
    exact Except.noConfusion hh
  · rw [if_neg hk]
    exact bind_ne_inv (pyIndex_ne_inv xs k) (fun v hh => Except.noConfusion hh)

theorem getYLoop_ne_inv (c b : ℤ) :
    ∀ (f : ℕ) (y yprev : ℤ),
      getYLoop c b f y yprev ≠ Except.error PyErr.invalidInputs := by
  intro f
  induction f with
  | zero =>
    intro y yprev
    rw [getYLoop]
    split <;> simp
  | succ f ih =>
    intro y yprev
    rw [getYLoop]
    split
    · simp
    · exact bind_ne_inv (pyDiv_ne_inv _ _) (fun ynext => ih ynext y)

theorem get_y_ne_inv (A : ℤ) (n : ℕ) (i j : ℕ) (x : ℤ) (xp : List ℤ)
    (fuel : ℕ) : get_y A n i j x xp fuel ≠ Except.error PyErr.invalidInputs := by
  unfold get_y
  refine bind_ne_inv (get_D_ne_inv xp A n fuel) (fun D => ?_)
  refine bind_ne_inv (pySet_ne_inv xp i x) (fun xx => ?_)
  refine bind_ne_inv (dropCoin_ne_inv xx n j) (fun xx2 => ?_)
  refine bind_ne_inv
    (foldlM_ne_inv _ (fun c y => pyDiv_ne_inv (c * D) (y * (n : ℤ))) xx2 D)
    (fun c => ?_)
  refine bind_ne_inv (pyDiv_ne_inv _ _) (fun c2 => ?_)
  refine bind_ne_inv (pyDiv_ne_inv _ _) (fun dAnn => ?_)
  exact getYLoop_ne_inv _ _ fuel D 0

theorem dynamic_fee_ne_inv (fee_mul fee xpi xpj : ℤ) :
    dynamic_fee fee_mul fee xpi xpj ≠ Except.error PyErr.invalidInputs := by
  unfold dynamic_fee
  exact bind_ne_inv (pyDiv_ne_inv _ _) (fun t => pyDiv_ne_inv _ _)

theorem exchangeFee_ne_inv (pool : Pool) (dy xpi x xpj y : ℤ) :
    exchangeFee pool dy xpi x xpj y ≠ Except.error PyErr.invalidInputs := by
  unfold exchangeFee
  cases pool.fee_mul with
  | none =>
    intro hh
    exact Except.noConfusion hh
  | some fm =>
    exact bind_ne_inv (dynamic_fee_ne_inv _ _ _ _)
      (fun df hh => Except.noConfusion hh)

theorem exchange_ne_inv (pool : Pool) (i j : ℕ) (dx : ℤ) (fuel : ℕ) :
    exchange pool i j dx fuel ≠ Except.error PyErr.invalidInputs := by
  unfold exchange
  refine bind_ne_inv (pyIndex_ne_inv _ _) (fun xpi => ?_)
  refine bind_ne_inv (pyIndex_ne_inv _ _) (fun pi => ?_)
  refine bind_ne_inv (get_y_ne_inv _ _ _ _ _ _ _) (fun y => ?_)
  refine bind_ne_inv (pyIndex_ne_inv _ _) (fun xpj => ?_)
  refine bind_ne_inv (exchangeFee_ne_inv _ _ _ _ _ _) (fun fee => ?_)
  refine bind_ne_inv (pyIndex_ne_inv _ _) (fun rate => ?_)
  refine bind_ne_inv (pyDiv_ne_inv _ _) (fun dy2 => ?_)
  refine bind_ne_inv (pyDiv_ne_inv _ _) (fun fee2 => ?_)
  refine bind_ne_inv (pyDiv_ne_inv _ _) (fun af2 => ?_)
  split
  · simp
  · refine bind_ne_inv (pyListAdd_ne_inv _ _ _) (fun x1 => ?_)
    refine bind_ne_inv (pyListAdd_ne_inv _ _ _) (fun x2 => ?_)
    refine bind_ne_inv (pyListAdd_ne_inv _ _ _) (fun ab => ?_)
    intro hh
    exact Except.noConfusion hh

/-- The `get_y_D` Newton loop is exactly the `get_y` Newton loop run
with the effective linear coefficient `b - D`: the `- D` term the
specification says is absent is applied inside the loop denominator. -/
theorem getYDLoop_eq_getYLoop (c b D : ℤ) :
    ∀ (fuel : ℕ) (y yprev : ℤ),
      getYDLoop c b D fuel y yprev = getYLoop c (b - D) fuel y yprev := by
  intro fuel
  induction fuel with
  | zero =>
    intro y yprev
    rw [getYDLoop, getYLoop]
  | succ f ih =>
    intro y yprev
    rw [getYDLoop, getYLoop]
    by_cases hc : |y - yprev| ≤ 1
    · rw [if_pos hc, if_pos hc]
    · rw [if_neg hc, if_neg hc]
      have harith : 2 * y + b - D = 2 * y + (b - D) := by ring
      rw [harith]
      cases hyn : pyDiv (y ^ 2 + c) (2 * y + (b - D)) with
      | error e => rw [errBind, errBind]
      | ok ynext => rw [okBind, okBind]; exact ih ynext y

/-! ### Fixtures and claim-specific apparatus -/

/-- The test pool with the LP token supply field set to zero directly
(the constructor cannot produce this state for a pool with liquidity;
Python code can assign the attribute freely). -/
def zeroTokenPool : Pool :=
  Pool.mk 250 2 (4 * 10 ^ 6) [TEN18, TEN18] [5 * 10 ^ 23, 5 * 10 ^ 23] 0
    none 0 [0, 0]

/-- Per-index feasibility of a solver output component against its trade
box: every non-NaN component is strictly below the upper bound `hi` of
its box.  This models the guarantee of the bounded trust-region solver
(scipy `least_squares`, method `trf`, keeps its iterates strictly
feasible); the box `[0, limit + 1]` recorded by the code relies on it. -/
def feasBelow (odx : Option ℚ) (t : ArbTrade) : Bool :=
  match odx with
  | none => true
  | some q => decide (q < (t.hi : ℚ))

theorem pyInt_zero : pyInt 0 = 0 :=
  rfl

/-- A positive truncation that is strictly below an integer bound stays
strictly below it: for `0 < pyInt q`, `pyInt q = ⌊q⌋`. -/
theorem pyInt_lt_int {q : ℚ} {z : ℤ} (hpos : 0 < pyInt q)
    (hlt : q < (z : ℚ)) : pyInt q < z := by
  have hnum : 0 ≤ q.num := by
    by_contra hn
    push_neg at hn
    have h1 : (0 : ℤ) ≤ -q.num := by omega
    have h2 : (0 : ℤ) ≤ (q.den : ℤ) := Int.ofNat_nonneg _
    have h3 := Int.tdiv_nonneg h1 h2
    rw [Int.neg_tdiv] at h3
    unfold pyInt at hpos
    omega
  have hfloor : pyInt q = ⌊q⌋ := by
    unfold pyInt
    rw [Int.tdiv_eq_ediv hnum (Int.ofNat_nonneg _)]
    exact Rat.floor_def.symm
  rw [hfloor]
  exact Int.floor_lt.mpr hlt

/-- Every trade formatted from a solver output that is strictly below
the recorded upper bounds has `dx` at most `hi - 1` for its trade. -/
theorem formatTrades_spec (ts : List ArbTrade) (dxs : List (Option ℚ))
    (hfa : List.Forall₂ (fun odx t => feasBelow odx t = true) dxs ts) :
    ∀ i j dx, (i, j, dx) ∈ formatTrades (ts.map ArbTrade.pair) dxs →
      ∃ t, t ∈ ts ∧ t.pair = (i, j) ∧ dx ≤ t.hi - 1 := by
  induction hfa with
  | nil =>
    intro i j dx hmem
    simp [formatTrades] at hmem
  | @cons odx t dxs ts hrel htail ih =>
    intro i j dx hmem
    unfold formatTrades at hmem
    rw [List.map_cons, List.zip_cons_cons, List.filterMap_cons] at hmem
    cases odx with
    | none =>
      obtain ⟨t', ht', hp, hd⟩ := ih i j dx hmem
      exact ⟨t', List.mem_cons_of_mem t ht', hp, hd⟩
    | some q =>
      have hstep : formatStep (some q, t.pair)
          = if 0 < pyInt q then some (t.pair.1, t.pair.2, pyInt q)
            else none := rfl
      rw [hstep] at hmem
      by_cases hdx : 0 < pyInt q
      · rw [if_pos hdx] at hmem
        rcases List.mem_cons.mp hmem with heq | htl
        · injection heq with h1 h2
          injection h2 with h2 h3
          have hq : q < (t.hi : ℚ) := of_decide_eq_true hrel
          have hlt : pyInt q < t.hi := pyInt_lt_int hdx hq
          refine ⟨t, List.mem_cons_self t ts, ?_, ?_⟩
          · rw [h1, h2]
          · omega
        · obtain ⟨t', ht', hp, hd⟩ := ih i j dx htl
          exact ⟨t', List.mem_cons_of_mem t ht', hp, hd⟩
      · rw [if_neg hdx] at hmem
        obtain ⟨t', ht', hp, hd⟩ := ih i j dx hmem
        exact ⟨t', List.mem_cons_of_mem t ht', hp, hd⟩

/-- Every element of the volume-limited trade list records the box upper
bound `int(limit * 10**18) + 1` for its own coin pair. -/
theorem limitTrades_shape (init_trades : List (ℤ × (ℕ × ℕ) × ℚ))
    (limits : List ℚ) (t : ArbTrade)
    (ht : t ∈ limitTrades init_trades limits) :
    ∃ st, st ∈ init_trades.zip limits ∧ t.pair = st.1.2.1 ∧
      t.hi = pyInt (st.2 * 10 ^ 18) + 1 := by
  unfold limitTrades at ht
  obtain ⟨st, hst, rfl⟩ := List.mem_map.mp ht
  exact ⟨st, hst, rfl, rfl⟩

/-! ### Claim theorems -/

/-- C1: whenever the least-squares solver succeeds (its output lying
strictly inside the recorded boxes, as scipy's trust-region-reflective
solver guarantees), every trade `(i, j, dx)` formatted from its output
satisfies `dx ≤ int(limit * 10**18)` for the volume limit zipped with
that trade's coin pair. -/
theorem multipair_trades_respect_volume_caps
    (init_trades : List (ℤ × (ℕ × ℕ) × ℚ)) (limits : List ℚ)
    (dxs : List (Option ℚ))
    (hfeas : List.Forall₂ (fun odx t => feasBelow odx t = true) dxs
      (sortTrades (limitTrades init_trades limits)))
    (i j : ℕ) (dx : ℤ)
    (hmem : (i, j, dx) ∈ formatTrades
      ((sortTrades (limitTrades init_trades limits)).map ArbTrade.pair) dxs) :
    ∃ st, st ∈ init_trades.zip limits ∧ st.1.2.1 = (i, j) ∧
      dx ≤ pyInt (st.2 * 10 ^ 18) := by
  obtain ⟨t, htmem, hpair, hdx⟩ :=
    formatTrades_spec _ dxs hfeas i j dx hmem
  have htmem' : t ∈ limitTrades init_trades limits :=
    (List.perm_insertionSort _ _).mem_iff.mp htmem
  obtain ⟨st, hst, hp2, hhi⟩ := limitTrades_shape _ _ t htmem'
  refine ⟨st, hst, ?_, ?_⟩
  · rw [← hp2, hpair]
  · omega

theorem pyInt_intCast (z : ℤ) : pyInt ((z : ℚ)) = z := by
  unfold pyInt
  rw [Rat.num_intCast, Rat.den_intCast, Nat.cast_one, Int.tdiv_one]

/-- Witness for C1 at a concrete instance: one seed trade on pair
`(0, 1)` with limit `3`, solver output `3`. -/
theorem multipair_trades_respect_volume_caps_witness :
    ∃ st, st ∈ ([((5 : ℤ), ((0 : ℕ), (1 : ℕ)), (1 : ℚ))].zip [(3 : ℚ)]) ∧
      st.1.2.1 = (0, 1) ∧ (3 : ℤ) ≤ pyInt (st.2 * 10 ^ 18) := by
  have hq3 : (3 : ℚ) * 10 ^ 18 = (((3 * 10 ^ 18 : ℤ)) : ℚ) := by norm_num
  have hpy : pyInt ((3 : ℚ) * 10 ^ 18) = 3 * 10 ^ 18 := by
    rw [hq3, pyInt_intCast]
  have hq1 : (3 : ℚ) = (((3 : ℤ)) : ℚ) := by norm_num
  have hpy1 : pyInt (3 : ℚ) = 3 := by
    rw [hq1, pyInt_intCast]
  have h1 : limitTrades [((5 : ℤ), ((0 : ℕ), (1 : ℕ)), (1 : ℚ))] [(3 : ℚ)]
      = [ArbTrade.mk 5 (0, 1) 1 0 (3 * 10 ^ 18 + 1)] := by
    unfold limitTrades
    rw [List.zip_cons_cons, List.zip_nil_left, List.map_cons, List.map_nil,
      hpy]
    norm_num
  have h2 : sortTrades [ArbTrade.mk 5 (0, 1) 1 0 (3 * 10 ^ 18 + 1)]
      = [ArbTrade.mk 5 (0, 1) 1 0 (3 * 10 ^ 18 + 1)] := rfl
  refine multipair_trades_respect_volume_caps _ _ [some (3 : ℚ)] ?_ 0 1 3 ?_
  · rw [h1, h2]
    refine List.Forall₂.cons ?_ List.Forall₂.nil
    unfold feasBelow
    rw [decide_eq_true_eq]
    norm_num
  · rw [h1, h2]
    unfold formatTrades
    rw [List.map_cons, List.map_nil, List.zip_cons_cons, List.zip_nil_left,
      List.filterMap_cons]
    have hpos : (0 : ℤ) < pyInt (3 : ℚ) := by rw [hpy1]; norm_num
    have hstep : formatStep (some (3 : ℚ), ((0 : ℕ), (1 : ℕ)))
        = if 0 < pyInt (3 : ℚ) then some (0, 1, pyInt (3 : ℚ)) else none :=
      rfl
    rw [hstep, if_pos hpos, hpy1]
    exact List.mem_cons_self _ _

/-- C2 (amended): the Newton loop of `get_D` has no iteration cap and
never raises a convergence error: it keeps iterating until
`|D - D_prev| <= 1`, which can take more than 255 iterations.  The
result is stable in the embedding's fuel: once the loop converges within
some budget, every larger budget returns the same `D`. -/
theorem get_D_no_iteration_cap (xp : List ℤ) (A : ℤ) (n : ℕ)
    (f f' : ℕ) (d : ℤ) (hle : f ≤ f')
    (h : get_D xp A n f = Except.ok d) :
    get_D xp A n f' = Except.ok d :=
  getDLoop_fuel_mono xp n (A * (n : ℤ)) xp.sum f f' xp.sum 0 d hle h

/-- Witness for C2's amended theorem on the balanced test balances. -/
theorem get_D_no_iteration_cap_witness :
    get_D [5 * 10 ^ 23, 5 * 10 ^ 23] 250 2 9 = Except.ok (10 ^ 24) :=
  get_D_no_iteration_cap [5 * 10 ^ 23, 5 * 10 ^ 23] 250 2 3 9 (10 ^ 24)
    (by omega) rfl

/-- C2 (counterexample): on input `xp = [1, 10^150]`, `A = 1`, `n = 2`
the `get_D` Newton loop has not converged after 255 iterations — where
the claim says the code must raise `NumericNotConverged` — and the
(uncapped) loop simply continues and terminates normally at iteration
291 with a value. -/
theorem get_D_needs_more_than_255_iterations :
    get_D [1, 10 ^ 150] 1 2 255 = Except.error PyErr.fuelOut ∧
    get_D [1, 10 ^ 150] 1 2 291 = Except.ok
      19999999999999999999999999999999999999999999999999933333333333333333333333333333333333333333333333333 :=
  ⟨rfl, rfl⟩

/-- C3 (amended): on `Pool(A=250, D=10^6*10^18, n=2)` with default
parameters, `exchange(0, 1, 150*10^6)` returns the tuple
`(dy, fee) = (149940000, 59999)` — the 0.04% fee (`fee = 4*10^6`) is
deducted from the gross `dy = 150*10^6 - 1` — and afterwards `x[0]` has
increased by `150*10^6` and `x[1]` has decreased by `149940000`
(admin fee zero under the defaults). -/
theorem exchange_scenario_values :
    Pool.make 250 (DArg.int (10 ^ 6 * TEN18)) 2 none none (4 * 10 ^ 6)
        none 0 255 = Except.ok testPool ∧
    exchange testPool 0 1 (150 * 10 ^ 6) 255 = Except.ok (149940000, 59999,
      Pool.mk 250 2 (4 * 10 ^ 6) [TEN18, TEN18]
        [500000000000000150000000, 499999999999999850060000] (10 ^ 24)
        none 0 [0, 0]) :=
  ⟨rfl, rfl⟩

/-- C3 (counterexample): the `dy` returned by the exchange of the
docstring scenario is `149940000`, not the documented `150_000_000`. -/
theorem exchange_scenario_dy_cex :
    (exchange testPool 0 1 (150 * 10 ^ 6) 255).map (fun r => r.1)
        = Except.ok 149940000 ∧
    (149940000 : ℤ) ≠ 150000000 :=
  ⟨rfl, by decide⟩

/-- C4 (amended): in `calc_withdraw_one_coin(token_amount, i, use_fee=True)`
the minuend of the final `dy` formula is the fee-REDUCED coordinate
`xp_reduced[i]`, not the original `xp[i]`: line 263 (`xp_reduced = xp`)
aliases both names to one list and the fee loop also shrinks index `i`.
Whenever every intermediate step succeeds the method returns
`dy = (xp_reduced[i] - get_y_D(A, i, xp_reduced, D1) - 1) * 10**18 // p[i]`
together with `dy_fee = dy_before_fee - dy`. -/
theorem calc_withdraw_minuend_is_reduced (pool : Pool) (amt : ℤ)
    (i fuel : ℕ) (D0 t new_y xpi pi dyb yred xpredi dy : ℤ) (xpr : List ℤ)
    (hD0 : get_D pool.xp pool.A pool.n fuel = Except.ok D0)
    (ht : pyDiv (amt * D0) pool.tokens = Except.ok t)
    (hy : get_y_D pool.A pool.n i pool.xp (D0 - t) fuel = Except.ok new_y)
    (hxpi : pyIndex pool.xp i = Except.ok xpi)
    (hpi : pyIndex pool.p i = Except.ok pi)
    (hdyb : pyDiv ((xpi - new_y) * TEN18) pi = Except.ok dyb)
    (hfee : pool.fee ≠ 0)
    (hred : reduceXp pool pool.xp D0 (D0 - t) new_y i = Except.ok xpr)
    (hyred : get_y_D pool.A pool.n i xpr (D0 - t) fuel = Except.ok yred)
    (hxpredi : pyIndex xpr i = Except.ok xpredi)
    (hdy : pyDiv ((xpredi - yred - 1) * TEN18) pi = Except.ok dy) :
    calc_withdraw_one_coin pool amt i true fuel
      = Except.ok (dy, some (dyb - dy)) := by
  have hros : reducedOrSame pool pool.xp D0 (D0 - t) new_y i true
      = Except.ok xpr := by
    unfold reducedOrSame
    rw [if_pos ⟨hfee, rfl⟩]
    exact hred
  simp only [calc_withdraw_one_coin, hD0, okBind, ht, hy, hxpi, hpi, hdyb,
    hros, hyred, hxpredi, hdy]
  rw [if_pos trivial]

/-- Witness for C4's amended theorem: the concrete single-coin withdraw
of `10^22` LP tokens for coin `0` on the test pool. -/
theorem calc_withdraw_minuend_is_reduced_witness :
    calc_withdraw_one_coin testPool (10 ^ 22) 0 true 255
      = Except.ok (9997798893125163588183, some 1999879264959081391) :=
  calc_withdraw_minuend_is_reduced testPool (10 ^ 22) 0 255
    (10 ^ 24) (10 ^ 22) 490000201227609877330426 (5 * 10 ^ 23) TEN18
    9999798772390122669574 490001201147120358387283
    499999000040245521975467 9997798893125163588183
    [499999000040245521975467, 499999000000000000000000]
    (by rfl) (by rfl) (by rfl) (by rfl) (by rfl) (by rfl) (by decide)
    (by rfl) (by rfl) (by rfl) (by rfl)

/-- C4 (counterexample): on the test pool the value computed by the code
differs from the claim's formula built on the ORIGINAL `xp[i]`: the fee
shrink of coordinate `i` does alter the minuend. -/
theorem calc_withdraw_original_minuend_cex :
    calc_withdraw_one_coin testPool (10 ^ 22) 0 true 255
        = Except.ok (9997798893125163588183, some 1999879264959081391) ∧
    withdraw_dy_specVariant testPool (10 ^ 22) 0 255
        = Except.ok 9998798852879641612716 ∧
    (9997798893125163588183 : ℤ) ≠ 9998798852879641612716 :=
  ⟨rfl, rfl, by decide⟩

/-- C5 (amended): `get_y_D` runs the same Newton iteration as `get_y`
with `D` supplied instead of recomputed, but its loop denominator is
`2*y + b - D` with `b = S + D // Ann` — the `- D` term is present, only
moved from `b` into the loop.  Formally, the `get_y_D` loop coincides
with the `get_y` loop run at the effective coefficient `b - D`, at every
step and for every fuel. -/
theorem get_y_D_same_iteration_as_get_y (c b D : ℤ) (fuel : ℕ)
    (y yprev : ℤ) :
    getYDLoop c b D fuel y yprev = getYLoop c (b - D) fuel y yprev :=
  getYDLoop_eq_getYLoop c b D fuel y yprev

/-- C5 (counterexample): with the denominator the claim states —
`2*y + S + D // Ann`, no `- D` — the iteration computes a different
value than `get_y_D` does. -/
theorem get_y_D_denominator_cex :
    get_y_D 250 2 0 [5 * 10 ^ 23, 5 * 10 ^ 23] (9 * 10 ^ 23) 255
        = Except.ok 400022397955031384798567 ∧
    get_y_D_specVariant 250 2 0 [5 * 10 ^ 23, 5 * 10 ^ 23] (9 * 10 ^ 23) 255
        = Except.ok 1448588266310695443793 ∧
    (400022397955031384798567 : ℤ) ≠ 1448588266310695443793 :=
  ⟨rfl, rfl, by decide⟩

/-- C6 (amended): `calc_token_amount` has no empty-pool special case:
the mint amount is always `tokens * (D2 - D0) // D0`, so a pool whose
LP token supply is `0` mints `0` — not `D1` — whenever the call
succeeds.  (With all balances zero the call does not even succeed: the
final division by `D0 = 0` is a `ZeroDivisionError`.) -/
theorem calc_token_amount_zero_tokens_mints_zero (pool : Pool)
    (amounts : List ℤ) (use_fee : Bool) (fuel : ℕ) (r : ℤ × Option (List ℤ))
    (htok : pool.tokens = 0)
    (h : calc_token_amount pool amounts use_fee fuel = Except.ok r) :
    r.1 = 0 := by
  unfold calc_token_amount at h
  obtain ⟨D0, hD0, h⟩ := bindOk h
  obtain ⟨nb, hnb, h⟩ := bindOk h
  obtain ⟨D1, hD1, h⟩ := bindOk h
  split at h
  · obtain ⟨fee1, hfee1, h⟩ := bindOk h
    obtain ⟨fm, hfm, h⟩ := bindOk h
    obtain ⟨D2, hD2, h⟩ := bindOk h
    obtain ⟨diff, hdiff, h⟩ := bindOk h
    rw [htok, zero_mul] at hdiff
    unfold pyDiv at hdiff
    split at hdiff
    · exact Except.noConfusion hdiff
    · injection hdiff with hval
      injection h with hr
      rw [← hr]
      show diff = 0
      rw [← hval]
      exact Int.zero_fdiv _
  · obtain ⟨D2, hD2, h⟩ := bindOk h
    obtain ⟨diff, hdiff, h⟩ := bindOk h
    rw [htok, zero_mul] at hdiff
    unfold pyDiv at hdiff
    split at hdiff
    · exact Except.noConfusion hdiff
    · injection hdiff with hval
      injection h with hr
      rw [← hr]
      show diff = 0
      rw [← hval]
      exact Int.zero_fdiv _

/-- Witness for C6's amended theorem at the concrete zero-supply pool. -/
theorem calc_token_amount_zero_tokens_mints_zero_witness :
    ((0 : ℤ), (none : Option (List ℤ))).1 = 0 :=
  calc_token_amount_zero_tokens_mints_zero zeroTokenPool [10 ^ 18, 10 ^ 18]
    false 255 (0, none) rfl (by rfl)

/-- C6 (counterexample): with `tokens = 0` and nonzero balances the call
returns mint `0`, while `D1` — the invariant of the post-deposit
balances, which the claim says is the mint — is nonzero. -/
theorem calc_token_amount_empty_pool_cex :
    calc_token_amount zeroTokenPool [10 ^ 18, 10 ^ 18] false 255
        = Except.ok (0, none) ∧
    get_D_mem zeroTokenPool [5 * 10 ^ 23 + 10 ^ 18, 5 * 10 ^ 23 + 10 ^ 18]
        250 255 = Except.ok 1000002000000000000000000 ∧
    (0 : ℤ) ≠ 1000002000000000000000000 :=
  ⟨rfl, rfl, by decide⟩

/-- C7 (amended): `exchange` performs no input validation: no code path
can signal `InvalidInputs`; an out-of-range coin index surfaces as a
Python `IndexError` from the very first balance read, before any state
is mutated.  (`i == j` and negative `dx` are not rejected either: they
flow into the arithmetic — see the counterexample.) -/
theorem exchange_never_invalid_inputs (pool : Pool) (i j : ℕ) (dx : ℤ)
    (fuel : ℕ) :
    exchange pool i j dx fuel ≠ Except.error PyErr.invalidInputs ∧
    (pool.x.length = pool.p.length → pool.x.length ≤ i →
      exchange pool i j dx fuel = Except.error PyErr.indexError) := by
  constructor
  · exact exchange_ne_inv pool i j dx fuel
  · intro hlen hi
    have hxp : pool.xp.get? i = none := by
      rw [List.get?_eq_none]
      unfold Pool.xp
      rw [List.length_zipWith, ← hlen, min_self]
      exact hi
    have hpy : pyIndex pool.xp i = Except.error PyErr.indexError := by
      unfold pyIndex
      rw [hxp]
    simp only [exchange]
    rw [hpy, errBind]

/-- Witness for C7's amended theorem: index 5 on the two-coin test pool
is out of range and yields `IndexError`. -/
theorem exchange_never_invalid_inputs_witness :
    exchange testPool 5 0 7 255 = Except.error PyErr.indexError :=
  (exchange_never_invalid_inputs testPool 5 0 7 255).2 rfl (by decide)

/-- C7 (counterexample): `exchange(0, 0, 150*10^6)` — equal indices — on
the test pool raises no error at all (let alone `InvalidInputs`) and
mutates the pool: `x[0]` grows by the full `dx`. -/
theorem exchange_equal_indices_cex :
    exchange testPool 0 0 (150 * 10 ^ 6) 255 = Except.ok (0, -1,
      Pool.mk 250 2 (4 * 10 ^ 6) [TEN18, TEN18]
        [500000000000000150000000, 5 * 10 ^ 23] (10 ^ 24) none 0 [0, 0]) ∧
    (Pool.mk 250 2 (4 * 10 ^ 6) [TEN18, TEN18]
        [500000000000000150000000, 5 * 10 ^ 23] (10 ^ 24) none 0 [0, 0]).x
      ≠ testPool.x :=
  ⟨rfl, by decide⟩

/-- Folding the zero trade vector over any pool state applies no trade:
`int(0) = 0` is never `> 0`. -/
theorem foldl_zero_trades {P : Type} (trade : P → ℕ → ℕ → ℤ → P) :
    ∀ (cs : List (ℕ × ℕ)) (m : ℕ) (st : P),
      (cs.zip (List.replicate m (some (0 : ℚ)))).foldl
        (applyTradeStep trade) st = st := by
  intro cs
  induction cs with
  | nil =>
    intro m st
    rfl
  | cons c cs ih =>
    intro m st
    cases m with
    | zero => rfl
    | succ k =>
      rw [List.replicate_succ, List.zip_cons_cons, List.foldl_cons]
      have hstep : applyTradeStep trade st (c, some (0 : ℚ)) = st := by
        show (if 0 < pyInt (0 : ℚ) then trade st c.1 c.2 (pyInt 0) else st)
          = st
        rw [pyInt_zero, if_neg (lt_irrefl 0)]
      rw [hstep]
      exact ih k st

/-- C8: the failure branch of `multipair_optimal_arbitrage` returns an
empty trade list together with the joint residual evaluated at the
all-zero trade vector: no trade is applied to the snapshot, so each
residual is the pool's current price with fee minus the price target of
its pair. -/
theorem multipair_failure_zero_residuals {P : Type}
    (price : P → ℕ → ℕ → Bool → ℚ) (trade : P → ℕ → ℕ → ℤ → P) (pool : P)
    (sizes : List ℤ) (price_targets : List ℚ) (coins : List (ℕ × ℕ)) :
    multipair_failure_result price trade pool sizes price_targets coins
      = ([], (coins.zip price_targets).map
          (fun t => price pool t.1.1 t.1.2 true - t.2)) := by
  unfold multipair_failure_result post_trade_price_error_multi
  rw [foldl_zero_trades]

/-- State-threading form of `calc_token_amount`: the method body assigns
to no `self` attribute — `old_balances = self.x` is only read, and
`new_balances = self.x[:]` and `mint_balances = new_balances[:]` are
copies — so the pool the caller continues with is the input pool. -/
def calc_token_amount_state (pool : Pool) (amounts : List ℤ)
    (use_fee : Bool) (fuel : ℕ) :
    Except PyErr ((ℤ × Option (List ℤ)) × Pool) :=
  (calc_token_amount pool amounts use_fee fuel).map (fun r => (r, pool))

/-- State-threading form of `calc_withdraw_one_coin`: the method body
assigns to no `self` attribute — the mutated list is the local `xp`
returned by `_xp()`, which builds a fresh list. -/
def calc_withdraw_one_coin_state (pool : Pool) (token_amount : ℤ) (i : ℕ)
    (use_fee : Bool) (fuel : ℕ) :
    Except PyErr ((ℤ × Option ℤ) × Pool) :=
  (calc_withdraw_one_coin pool token_amount i use_fee fuel).map
    (fun r => (r, pool))

/-- C9: the query operations `calc_token_amount` and
`calc_withdraw_one_coin` leave the pool state — all fields, in
particular `x`, `admin_balances` and `tokens` — unchanged. -/
theorem calc_queries_pool_unchanged (pool : Pool) (amounts : List ℤ)
    (amt : ℤ) (i : ℕ) (u1 u2 : Bool) (fuel : ℕ) :
    (∀ r p', calc_token_amount_state pool amounts u1 fuel
        = Except.ok (r, p') → p' = pool) ∧
    (∀ r p', calc_withdraw_one_coin_state pool amt i u2 fuel
        = Except.ok (r, p') → p' = pool) := by
  constructor
  · intro r p' h
    unfold calc_token_amount_state at h
    cases hq : calc_token_amount pool amounts u1 fuel with
    | error e =>
      rw [hq] at h
      exact Except.noConfusion h
    | ok a =>
      rw [hq] at h
      injection h with h'
      injection h' with h1 h2
      exact h2.symm
  · intro r p' h
    unfold calc_withdraw_one_coin_state at h
    cases hq : calc_withdraw_one_coin pool amt i u2 fuel with
    | error e =>
      rw [hq] at h
      exact Except.noConfusion h
    | ok a =>
      rw [hq] at h
      injection h with h'
      injection h' with h1 h2
      exact h2.symm

/-- Witness for C9 at the concrete test pool and a balanced deposit. -/
theorem calc_queries_pool_unchanged_witness : testPool = testPool :=
  (calc_queries_pool_unchanged testPool [10 ^ 18, 10 ^ 18] (10 ^ 22) 0
      false true 255).1 (2 * 10 ^ 18, none) testPool (by rfl)

/-- Passing `tokens = 0` takes the same branch as passing nothing. -/
theorem initialTokens_zero (xp : List ℤ) (A : ℤ) (n fuel : ℕ) :
    initialTokens (some 0) xp A n fuel = initialTokens none xp A n fuel :=
  rfl

/-- C10 (amended): constructing a pool with `tokens=0` is identical to
omitting the argument — `self.tokens = tokens or self.D()` treats `0` as
falsy — so both set `tokens` to `D()` of the initial balances.  But this
does NOT make a zero-`tokens` pool impossible: when `D()` of the initial
balances is itself `0` (for example `D = 0`), the constructed pool has
`tokens = 0` (see the counterexample). -/
theorem pool_make_tokens_zero_like_none (A : ℤ) (D : DArg) (n : ℕ)
    (p? : Option (List ℤ)) (fee : ℤ) (fm : Option ℤ) (af : ℤ) (fuel : ℕ) :
    Pool.make A D n p? (some 0) fee fm af fuel
      = Pool.make A D n p? none fee fm af fuel ∧
    (∀ pool, Pool.make A D n p? none fee fm af fuel = Except.ok pool →
      get_D pool.xp A n fuel = Except.ok pool.tokens) := by
  constructor
  · unfold Pool.make
    simp only [initialTokens_zero]
  · intro pool h
    unfold Pool.make at h
    obtain ⟨x, hx, h⟩ := bindOk h
    obtain ⟨toks, htoks, h⟩ := bindOk h
    injection h with h'
    rw [← h']
    unfold initialTokens at htoks
    exact htoks

/-- Witness for C10's amended theorem: the test pool construction. -/
theorem pool_make_tokens_zero_like_none_witness :
    get_D testPool.xp 250 2 255 = Except.ok testPool.tokens :=
  (pool_make_tokens_zero_like_none 250 (DArg.int (10 ^ 6 * TEN18)) 2 none
      (4 * 10 ^ 6) none 0 255).2 testPool (by rfl)

/-- C10 (counterexample): `Pool(A=1, D=0, n=2, tokens=0)` succeeds and
its `tokens` field is `0`: the constructor CAN produce a zero-`tokens`
pool, because `D()` of the all-zero balances is `0`. -/
theorem pool_make_tokens_zero_cex :
    Pool.make 1 (DArg.int 0) 2 none (some 0) (4 * 10 ^ 6) none 0 255
      = Except.ok
          (Pool.mk 1 2 (4 * 10 ^ 6) [TEN18, TEN18] [0, 0] 0 none 0 [0, 0]) ∧
    (Pool.mk 1 2 (4 * 10 ^ 6) [TEN18, TEN18] [0, 0] 0 none 0 [0, 0]).tokens
      = 0 :=
  ⟨rfl, rfl⟩

end Curvesim

